import Mathlib

set_option maxHeartbeats 1600000

/-
Shallow embedding of the gmail-fetcher repository (src/src/client.rs and
src/src/main.rs).  Byte streams are modelled as `List Nat` (one entry per
byte).  The Rust code converts each complete CRLF-terminated buffer with
`String::from_utf8_lossy` and then uses ASCII-only substring operations
(`contains`, `find`, `starts_with`, `trim`, `split_whitespace`,
`parse::<u32>`); for the ASCII data these operations act on, the byte-level
versions below agree with the string-level originals, so the embedding
works directly on bytes.  Rust's panicking byte-range slice
`line_str[a..b]` is modelled totally by drop/take (they agree whenever the
source slice is in range).  Filesystem writes are modelled as an
append-only list of (message id, contents) pairs; `tokio::fs::write` is
assumed to succeed (FileError paths are not modelled).
-/

/-- ASCII bytes of a string literal (all protocol text in the source is ASCII). -/
def strBytes (s : String) : List Nat := s.data.map Char.toNat

/-- ASCII whitespace, the ASCII fragment of Rust `char::is_whitespace`. -/
def isWS (b : Nat) : Bool := b == 32 || (decide (9 ≤ b) && decide (b ≤ 13))

/-- Byte-level model of Rust `str::trim`. -/
def trimA (l : List Nat) : List Nat := ((l.dropWhile isWS).reverse.dropWhile isWS).reverse

/-- The source's end-of-line test: buffer length at least 2 and last two bytes CR LF. -/
def endsCRLF (l : List Nat) : Bool :=
  match l.reverse with
  | [] => false
  | [_] => false
  | b :: c :: _ => b == 10 && c == 13

/-- Whether an adjacent CR LF pair occurs anywhere in the list. -/
def hasCRLF : List Nat → Bool
  | [] => false
  | [_] => false
  | a :: b :: rest => (a == 13 && b == 10) || hasCRLF (b :: rest)

/-- Byte-level model of Rust `str::contains` for a substring pattern. -/
def containsSub : List Nat → List Nat → Bool
  | [], pat => pat.isEmpty
  | a :: t, pat => pat.isPrefixOf (a :: t) || containsSub t pat

/-- Byte-level model of Rust `str::find`: index of the first occurrence. -/
def findSub : List Nat → List Nat → Option Nat
  | [], pat => if pat.isEmpty then some 0 else none
  | a :: t, pat =>
    if pat.isPrefixOf (a :: t) then some 0
    else (findSub t pat).map (fun i => i + 1)

/-- Total model of the byte-range slice `l[a..b]` (agrees with Rust when in range). -/
def sliceBytes (l : List Nat) (a b : Nat) : List Nat := (l.drop a).take (b - a)

/-- Model of Rust `str::parse` for unsigned integers, before the width check:
an optional leading plus sign followed by at least one ASCII digit. -/
def parseNatBytes (l : List Nat) : Option Nat :=
  let rest := match l with | 43 :: r => r | _ => l
  if rest.isEmpty then none
  else rest.foldl (fun acc b =>
    match acc with
    | some v => if 48 ≤ b ∧ b ≤ 57 then some (10 * v + (b - 48)) else none
    | none => none) (some 0)

/-- `parse::<u32>`: reject values that do not fit in 32 bits. -/
def parseU32 (l : List Nat) : Option Nat :=
  match parseNatBytes l with
  | some v => if v < 4294967296 then some v else none
  | none => none

/-- `parse::<usize>` on a 64-bit target. -/
def parseUsize (l : List Nat) : Option Nat :=
  match parseNatBytes l with
  | some v => if v < 18446744073709551616 then some v else none
  | none => none

/-- Accumulator loop for `splitWS` (current word held in reverse). -/
def splitWSGo (cur : List Nat) : List Nat → List (List Nat)
  | [] => if cur.isEmpty then [] else [cur.reverse]
  | b :: rest =>
    if isWS b then
      if cur.isEmpty then splitWSGo [] rest
      else cur.reverse :: splitWSGo [] rest
    else splitWSGo (b :: cur) rest

/-- Byte-level model of Rust `str::split_whitespace` (no empty tokens). -/
def splitWS (l : List Nat) : List (List Nat) := splitWSGo [] l

def fetchTok : List Nat := strBytes "FETCH"
def braceOpen : List Nat := [123]
def braceClose : List Nat := [125]
def starSpTok : List Nat := strBytes "* "
def spFetchTok : List Nat := strBytes " FETCH"
def okTok : List Nat := strBytes "OK"
def badTok : List Nat := strBytes "BAD"
def noTok : List Nat := strBytes "NO"
def existsTok : List Nat := strBytes "EXISTS"
def tagA001 : List Nat := strBytes "A001"
def tagA002 : List Nat := strBytes "A002"
def tagA003 : List Nat := strBytes "A003"

/-- The error enumeration of src/src/error_imap.rs (constructors used by the
client; io/TLS message strings from the environment are elided, the
protocol-derived ImapError payload is kept). -/
inductive ClientError where
  | ImapError (msg : List Nat)
  | TlsError
  | ConnectionError
  | AuthenticationError
  | FileError
  | JoinError
deriving DecidableEq

/-- The local mutable state of `process_batch_async` (src/src/client.rs lines
343-350), plus `files`: the list of (id, contents) pairs written so far. -/
structure DecState where
  responseBuffer : List Nat
  currentEmailData : List Nat
  readingEmailBody : Bool
  emailBodySize : Nat
  bodyBytesRead : Nat
  currentEmailId : Nat
  emailsSaved : Nat
  expectingClosingParen : Bool
  files : List (Nat × List Nat)
deriving DecidableEq

/-- Initial decoder state (all buffers empty, flags false, counters zero). -/
def initDecState : DecState :=
  { responseBuffer := [], currentEmailData := [], readingEmailBody := false,
    emailBodySize := 0, bodyBytesRead := 0, currentEmailId := 0,
    emailsSaved := 0, expectingClosingParen := false, files := [] }

/-- Observable result of a `process_batch_async` run: files written plus
either the returned count or the ImapError line. -/
inductive BatchOutcome where
  | ok (files : List (Nat × List Nat)) (count : Nat)
  | imapErr (files : List (Nat × List Nat)) (line : List Nat)
deriving DecidableEq

/-- Message-id extraction (src/src/client.rs lines 393-402): integer between
the first "* " and the first " FETCH". -/
def extractId (line : List Nat) : Option Nat :=
  match findSub line starSpTok, findSub line spFetchTok with
  | some fs, some fe => parseU32 (sliceBytes line (fs + 2) fe)
  | _, _ => none

/-- Literal-size extraction (src/src/client.rs lines 404-415): integer between
the first open brace and the first close brace. -/
def extractSize (line : List Nat) : Option Nat :=
  match findSub line braceOpen, findSub line braceClose with
  | some ss, some se => parseUsize (sliceBytes line (ss + 1) se)
  | _, _ => none

/-- Dispatch on a completed CRLF-terminated buffer (src/src/client.rs lines
389-428).  `buf` is the accumulated response buffer including the final CRLF. -/
def lineDispatch (s : DecState) (buf : List Nat) : Sum DecState BatchOutcome :=
  let lineStr := trimA buf
  if containsSub lineStr fetchTok && containsSub lineStr braceOpen then
    let s1 := match extractId lineStr with
      | some id => { s with currentEmailId := id }
      | none => s
    match extractSize lineStr with
    | some n =>
        Sum.inl { s1 with emailBodySize := n, bodyBytesRead := 0,
                          readingEmailBody := true, currentEmailData := [],
                          responseBuffer := [] }
    | none => Sum.inl { s1 with responseBuffer := [] }
  else if tagA003.isPrefixOf lineStr then
    if containsSub lineStr okTok then
      Sum.inr (BatchOutcome.ok s.files s.emailsSaved)
    else if containsSub lineStr badTok || containsSub lineStr noTok then
      Sum.inr (BatchOutcome.imapErr s.files lineStr)
    else Sum.inl { s with responseBuffer := [] }
  else Sum.inl { s with responseBuffer := [] }

/-- One byte of the `process_batch_async` inner loop (src/src/client.rs lines
357-430). -/
def stepByte (s : DecState) (b : Nat) : Sum DecState BatchOutcome :=
  if s.readingEmailBody then
    let data := s.currentEmailData ++ [b]
    let read := s.bodyBytesRead + 1
    if s.emailBodySize ≤ read then
      Sum.inl { s with files := s.files ++ [(s.currentEmailId, data)],
                       emailsSaved := s.emailsSaved + 1,
                       readingEmailBody := false,
                       expectingClosingParen := true,
                       currentEmailData := [],
                       bodyBytesRead := read }
    else
      Sum.inl { s with currentEmailData := data, bodyBytesRead := read }
  else if s.expectingClosingParen then
    if b == 41 then Sum.inl { s with expectingClosingParen := false }
    else Sum.inl s
  else
    let buf := s.responseBuffer ++ [b]
    if endsCRLF buf then lineDispatch s buf
    else Sum.inl { s with responseBuffer := buf }

/-- Process the bytes of one read chunk, with the early returns of the source
propagated as `Sum.inr`. -/
def runChunk (s : DecState) : List Nat → Sum DecState BatchOutcome
  | [] => Sum.inl s
  | b :: rest =>
    match stepByte s b with
    | Sum.inl s' => runChunk s' rest
    | Sum.inr r => Sum.inr r

/-- The outer read loop of `process_batch_async`: each list element is the
byte block delivered by one successful `read`; the end of the list, or a
zero-length read, is end-of-input and returns the current count. -/
def runChunks (s : DecState) : List (List Nat) → BatchOutcome
  | [] => BatchOutcome.ok s.files s.emailsSaved
  | c :: cs =>
    if c.isEmpty then BatchOutcome.ok s.files s.emailsSaved
    else
      match runChunk s c with
      | Sum.inl s' => runChunks s' cs
      | Sum.inr r => r

/-- A decoder run in which one read delivers the whole stream. -/
def processBatch (stream : List Nat) : BatchOutcome := runChunks initDecState [stream]

/-- Zero-padding of Rust `format!` with width 5. -/
def zeroPad5 (n : Nat) : String :=
  let s := toString n
  String.mk (List.replicate (5 - s.length) '0') ++ s

/-- The saved file path (src/src/client.rs line 367). -/
def emailFileName (dir : String) (id : Nat) : String :=
  dir ++ ("/email_" ++ (zeroPad5 id ++ ".eml"))

/-- The range-generation loop of `fetch_emails_concurrently`
(src/src/client.rs lines 130-131, duplicated in src/src/main.rs lines 68-69):
`for start in (1..=email_count).step_by(10)` with
`end = min(start + batch_size - 1, email_count)`.  `start`, `batch_size` and
`email_count` are u32, so `start + 10 - 1` is computed modulo 2^32: the
wrapping add and the wrapping subtract compose to (start + 9) mod 2^32
(release semantics; a debug build panics at exactly the inputs where the add
wraps).  The `step_by` iterator itself never wraps — it yields exactly the
starts 1, 11, ... that are at most `email_count` — so only the end
computation carries the modulus.  Entered here at a general `start`. -/
def rangesFrom (start n : Nat) : List (Nat × Nat) :=
  if _h : start ≤ n then
    (start, min ((start + 10 - 1) % 4294967296) n) :: rangesFrom (start + 10) n
  else []
termination_by n + 1 - start
decreasing_by omega

/-- The batch ranges generated for a mailbox of `n` messages (batch size 10). -/
def batchRanges (n : Nat) : List (Nat × Nat) := rangesFrom 1 n

/-- The byte-at-a-time scan loop shared (by textual duplication in the source)
by `authenticate`, `select_inbox` and `get_email_count`: push each byte onto a
buffer, and when the buffer ends in CRLF run the per-line dispatch `step`,
which either updates the scan state (buffer is cleared) or finishes.
Exhausting the stream models a failing `read_exact` (ConnectionError). -/
def byteScanSt {σ α : Type} (step : σ → List Nat → Sum σ (Except ClientError α))
    (st : σ) (buf : List Nat) : List Nat → Except ClientError α
  | [] => Except.error ClientError.ConnectionError
  | b :: rest =>
    let buf' := buf ++ [b]
    if endsCRLF buf' then
      match step st buf' with
      | Sum.inl st' => byteScanSt step st' [] rest
      | Sum.inr r => r
    else byteScanSt step st buf' rest

/-- Per-line dispatch of the LOGIN response loop (src/src/client.rs lines
272-298): a line starting with the login tag succeeds iff it contains "OK". -/
def authStep (_ : Unit) (buf : List Nat) : Sum Unit (Except ClientError Unit) :=
  if tagA001.isPrefixOf buf then
    Sum.inr (if containsSub buf okTok then Except.ok ()
             else Except.error ClientError.AuthenticationError)
  else Sum.inl ()

/-- The LOGIN response scan over the bytes that follow the login command. -/
def authenticateScan (stream : List Nat) : Except ClientError Unit :=
  byteScanSt authStep () [] stream

/-- Per-line dispatch of the SELECT response loop in `select_inbox`
(src/src/client.rs lines 312-336). -/
def selectStep (_ : Unit) (buf : List Nat) : Sum Unit (Except ClientError Unit) :=
  if tagA002.isPrefixOf buf then
    Sum.inr (if containsSub buf okTok then Except.ok ()
             else Except.error (ClientError.ImapError (strBytes "Failed to select INBOX")))
  else Sum.inl ()

/-- The SELECT response scan of `select_inbox`. -/
def selectInboxScan (stream : List Nat) : Except ClientError Unit :=
  byteScanSt selectStep () [] stream

/-- Per-line dispatch of the discovery SELECT loop in `get_email_count`
(src/src/client.rs lines 84-104): a line containing "EXISTS" updates the
count from its second whitespace token when that parses as a u32; a line
starting with the select tag finishes with the current count on "OK" and
with an ImapError otherwise. -/
def countStep (c : Nat) (buf : List Nat) : Sum Nat (Except ClientError Nat) :=
  let c' :=
    if containsSub buf existsTok then
      match splitWS buf with
      | _ :: t :: _ =>
        match parseU32 t with
        | some k => k
        | none => c
      | _ => c
    else c
  if tagA002.isPrefixOf buf then
    if containsSub buf okTok then Sum.inr (Except.ok c')
    else Sum.inr (Except.error (ClientError.ImapError (strBytes "Failed to select INBOX")))
  else Sum.inl c'

/-- The response scan of `get_email_count` (count starts at 0). -/
def getEmailCountScan (stream : List Nat) : Except ClientError Nat :=
  byteScanSt countStep 0 [] stream

/-- The environment of one `fetch_email_batch` call: the outcome of each
external interaction it performs, in program order.  Network writes of a
command are collapsed to one success flag (`write_all` and `flush` both map
their io errors to ConnectionError); the response bytes the server delivers
after each command are given as streams. -/
structure NetEnv where
  connectResult : Except ClientError Unit
  greetingOk : Bool
  loginWriteOk : Bool
  authStream : List Nat
  selectWriteOk : Bool
  selectStream : List Nat
  fetchWriteOk : Bool
  fetchChunks : List (List Nat)
  logoutWriteOk : Bool

/-- `authenticate` (src/src/client.rs lines 248-299): read the greeting, send
the LOGIN command, then scan the response lines. -/
def authenticate (env : NetEnv) : Except ClientError Unit :=
  if env.greetingOk = false then Except.error ClientError.ConnectionError
  else if env.loginWriteOk = false then Except.error ClientError.ConnectionError
  else authenticateScan env.authStream

/-- `select_inbox` (src/src/client.rs lines 301-337). -/
def selectInbox (env : NetEnv) : Except ClientError Unit :=
  if env.selectWriteOk = false then Except.error ClientError.ConnectionError
  else selectInboxScan env.selectStream

/-- `fetch_email_batch` (src/src/client.rs lines 186-222): connect,
authenticate, select, send the FETCH command, run the decoder, then write the
LOGOUT command — whose write/flush errors are propagated by `?` — and return
the saved count. -/
def fetchEmailBatch (env : NetEnv) : Except ClientError Nat :=
  match env.connectResult with
  | Except.error e => Except.error e
  | Except.ok _ =>
    match authenticate env with
    | Except.error e => Except.error e
    | Except.ok _ =>
      match selectInbox env with
      | Except.error e => Except.error e
      | Except.ok _ =>
        if env.fetchWriteOk = false then Except.error ClientError.ConnectionError
        else
          match runChunks initDecState env.fetchChunks with
          | BatchOutcome.imapErr _ line =>
              Except.error (ClientError.ImapError (strBytes "FETCH command failed: " ++ line))
          | BatchOutcome.ok _ saved =>
              if env.logoutWriteOk = false then Except.error ClientError.ConnectionError
              else Except.ok saved

instance {ε α : Type} [DecidableEq ε] [DecidableEq α] : DecidableEq (Except ε α) :=
  fun x y =>
    match x, y with
    | Except.ok a, Except.ok b =>
        if h : a = b then isTrue (by rw [h]) else isFalse (fun hc => h (Except.ok.inj hc))
    | Except.error a, Except.error b =>
        if h : a = b then isTrue (by rw [h]) else isFalse (fun hc => h (Except.error.inj hc))
    | Except.ok _, Except.error _ => isFalse (fun hc => Except.noConfusion hc)
    | Except.error _, Except.ok _ => isFalse (fun hc => Except.noConfusion hc)

/-- The outcome of awaiting one spawned batch task (src/src/client.rs lines
166-175): the task joined with the batch result, or the join itself failed. -/
inductive TaskOutcome where
  | joined (r : Except String Nat)
  | joinError
deriving DecidableEq

/-- The aggregation fold of `fetch_emails_concurrently` (src/src/client.rs
lines 162-175): sum the successful counts, count every failure. -/
def foldOutcomes (l : List TaskOutcome) : Nat × Nat :=
  l.foldl (fun acc o =>
    match o with
    | TaskOutcome.joined (Except.ok count) => (acc.1 + count, acc.2)
    | TaskOutcome.joined (Except.error _) => (acc.1, acc.2 + 1)
    | TaskOutcome.joinError => (acc.1, acc.2 + 1)) (0, 0)

/-- `fetch_emails_concurrently` (src/src/client.rs lines 120-183), with the
outcome each range's task eventually produces supplied by `outcome`: one task
per generated range, results folded into (total fetched, errors); the
function itself always returns Ok. -/
def fetchEmailsConcurrently (emailCount : Nat) (outcome : Nat × Nat → TaskOutcome) :
    Except ClientError (Nat × Nat) :=
  Except.ok (foldOutcomes ((batchRanges emailCount).map outcome))

/-- The count extracted by a successful task, 0 otherwise. -/
def succCount : TaskOutcome → Nat
  | TaskOutcome.joined (Except.ok c) => c
  | _ => 0

/-- Whether an awaited task counts as an error in the aggregation fold. -/
def isErrOutcome : TaskOutcome → Bool
  | TaskOutcome.joined (Except.ok _) => false
  | _ => true

/-- Phase of one spawned worker with respect to the semaphore
(src/src/client.rs lines 138-154): `running` holds the permit acquired at
line 139; the TLS connection is opened, used and dropped strictly inside the
`running` phase, and the permit is released when the task body finishes,
whether the batch succeeded or failed. -/
inductive WPhase where
  | pending
  | running
  | finished
deriving DecidableEq

/-- Number of workers currently holding a permit (hence possibly a connection). -/
def countRunning (l : List WPhase) : Nat := l.countP (fun w => w == WPhase.running)

/-- Interleaving semantics of the `Semaphore::new(k)` admission control:
a pending worker may start only while fewer than `k` permits are out, and a
running worker may finish at any time, releasing its permit. -/
inductive SemStep (k : Nat) : List WPhase → List WPhase → Prop
  | acquire (l₁ l₂ : List WPhase) (h : countRunning (l₁ ++ l₂) < k) :
      SemStep k (l₁ ++ WPhase.pending :: l₂) (l₁ ++ WPhase.running :: l₂)
  | release (l₁ l₂ : List WPhase) :
      SemStep k (l₁ ++ WPhase.running :: l₂) (l₁ ++ WPhase.finished :: l₂)

/-- States reachable by the orchestrator's workers from all-pending. -/
inductive SemReach (k : Nat) (init : List WPhase) : List WPhase → Prop
  | refl : SemReach k init init
  | step (s s' : List WPhase) (hr : SemReach k init s) (hs : SemStep k s s') :
      SemReach k init s'

/-- Abbreviation: outcome of running the decoder over one byte sequence and
then hitting end-of-input. -/
def runAll (s : DecState) (bytes : List Nat) : BatchOutcome :=
  match runChunk s bytes with
  | Sum.inl s' => BatchOutcome.ok s'.files s'.emailsSaved
  | Sum.inr r => r

lemma runChunk_append (a b : List Nat) (s : DecState) :
    runChunk s (a ++ b) =
      match runChunk s a with
      | Sum.inl s' => runChunk s' b
      | Sum.inr r => Sum.inr r := by
  induction a generalizing s with
  | nil => simp [runChunk]
  | cons x xs ih =>
    simp only [List.cons_append, runChunk]
    cases stepByte s x with
    | inl s' => exact ih s'
    | inr r => rfl

lemma runChunks_eq_runAll (cs : List (List Nat)) (s : DecState)
    (h : ∀ c ∈ cs, c ≠ []) : runChunks s cs = runAll s cs.flatten := by
  induction cs generalizing s with
  | nil => simp [runChunks, runAll, runChunk]
  | cons c cs ih =>
    have hc : c.isEmpty = false := by
      have := h c (by simp)
      cases c with
      | nil => exact absurd rfl this
      | cons x xs => rfl
    simp only [runChunks, hc, Bool.false_eq_true, if_false, List.flatten_cons, runAll,
      runChunk_append]
    cases hrc : runChunk s c with
    | inl s' => exact ih s' (fun d hd => h d (List.mem_cons_of_mem _ hd))
    | inr r => rfl

lemma processBatch_eq_runAll (stream : List Nat) :
    processBatch stream = runAll initDecState stream := by
  cases stream with
  | nil => rfl
  | cons b rest =>
    cases hrc : runChunk initDecState (b :: rest) with
    | inl s' => simp [processBatch, runChunks, runAll, hrc]
    | inr r => simp [processBatch, runChunks, runAll, hrc]

/-- C8: the decoder's observable result — saved (id, contents) pairs and the
returned count — does not depend on how the input stream is split into
non-empty read chunks: any chunking gives the same outcome as delivering the
concatenated stream in a single read. -/
theorem decoder_chunking_invariant (chunks : List (List Nat))
    (h : ∀ c ∈ chunks, c ≠ []) :
    runChunks initDecState chunks = processBatch chunks.flatten := by
  rw [processBatch_eq_runAll]
  exact runChunks_eq_runAll chunks initDecState h

theorem decoder_chunking_invariant_witness :
    runChunks initDecState
        [strBytes "* 7 FETCH (BO", strBytes "DY[] \x7b5\x7d\r\nhel",
         strBytes "lo)\r\nA003 OK\r\n"] =
      processBatch ([strBytes "* 7 FETCH (BO", strBytes "DY[] \x7b5\x7d\r\nhel",
         strBytes "lo)\r\nA003 OK\r\n"] : List (List Nat)).flatten :=
  decoder_chunking_invariant _ (by decide)

lemma runChunk_body (bs : List Nat) (s : DecState) (rest : List Nat)
    (hread : s.readingEmailBody = true)
    (hlen : s.bodyBytesRead + bs.length = s.emailBodySize)
    (hne : bs ≠ []) :
    runChunk s (bs ++ rest) =
      runChunk { s with readingEmailBody := false,
                        expectingClosingParen := true,
                        currentEmailData := [],
                        bodyBytesRead := s.emailBodySize,
                        emailsSaved := s.emailsSaved + 1,
                        files := s.files ++ [(s.currentEmailId, s.currentEmailData ++ bs)] }
        rest := by
  induction bs generalizing s with
  | nil => exact absurd rfl hne
  | cons b bs ih =>
    cases bs with
    | nil =>
      have h1 : s.emailBodySize = s.bodyBytesRead + 1 := by simpa using hlen.symm
      simp [runChunk, stepByte, hread, h1]
    | cons b2 bs2 =>
      have h2 : ¬ (s.emailBodySize ≤ s.bodyBytesRead + 1) := by
        simp only [List.length_cons] at hlen
        omega
      have step1 : runChunk s ((b :: b2 :: bs2) ++ rest) =
          runChunk { s with currentEmailData := s.currentEmailData ++ [b],
                            bodyBytesRead := s.bodyBytesRead + 1 } ((b2 :: bs2) ++ rest) := by
        simp [runChunk, stepByte, hread, h2]
      rw [step1]
      rw [ih { s with currentEmailData := s.currentEmailData ++ [b],
                      bodyBytesRead := s.bodyBytesRead + 1 }
            (by simpa using hread)
            (by simp only [List.length_cons] at hlen ⊢; omega)
            (by simp)]
      simp [List.append_assoc]


/-- Prepend a transformation of the files log to a decoder step result.  The
decoder never branches on the files written so far; this operator states how
its results transport along a change of that log. -/
def mapFilesSum (g : List (Nat × List Nat) → List (Nat × List Nat)) :
    Sum DecState BatchOutcome → Sum DecState BatchOutcome
  | Sum.inl s => Sum.inl { s with files := g s.files }
  | Sum.inr (BatchOutcome.ok f c) => Sum.inr (BatchOutcome.ok (g f) c)
  | Sum.inr (BatchOutcome.imapErr f l) => Sum.inr (BatchOutcome.imapErr (g f) l)

lemma lineDispatch_files (s : DecState) (fs : List (Nat × List Nat)) (buf : List Nat) :
    lineDispatch { s with files := fs ++ s.files } buf =
      mapFilesSum (fun f => fs ++ f) (lineDispatch s buf) := by
  unfold lineDispatch
  by_cases hA : (containsSub (trimA buf) fetchTok && containsSub (trimA buf) braceOpen) = true
  · simp only [hA, if_true]
    cases hid : extractId (trimA buf) with
    | some id =>
      cases hsz : extractSize (trimA buf) with
      | some n => simp [mapFilesSum]
      | none => simp [mapFilesSum]
    | none =>
      cases hsz : extractSize (trimA buf) with
      | some n => simp [mapFilesSum]
      | none => simp [mapFilesSum]
  · by_cases hB : tagA003.isPrefixOf (trimA buf) = true
    · by_cases hC : containsSub (trimA buf) okTok = true
      · simp [hA, hB, hC, mapFilesSum]
      · by_cases hD : (containsSub (trimA buf) badTok || containsSub (trimA buf) noTok) = true
        · simp [hA, hB, hC, hD, mapFilesSum]
        · simp [hA, hB, hC, hD, mapFilesSum]
    · simp [hA, hB, mapFilesSum]

lemma stepByte_files (s : DecState) (fs : List (Nat × List Nat)) (b : Nat) :
    stepByte { s with files := fs ++ s.files } b =
      mapFilesSum (fun f => fs ++ f) (stepByte s b) := by
  unfold stepByte
  by_cases h1 : s.readingEmailBody = true
  · by_cases h2 : s.emailBodySize ≤ s.bodyBytesRead + 1
    · simp [h1, h2, mapFilesSum, List.append_assoc]
    · simp [h1, h2, mapFilesSum]
  · by_cases h3 : s.expectingClosingParen = true
    · by_cases h4 : b == 41
      · simp [h1, h3, h4, mapFilesSum]
      · simp [h1, h3, h4, mapFilesSum]
    · by_cases h5 : endsCRLF (s.responseBuffer ++ [b]) = true
      · simpa [h1, h3, h5] using lineDispatch_files s fs (s.responseBuffer ++ [b])
      · simp [h1, h3, h5, mapFilesSum]

lemma runChunk_files (bytes : List Nat) (s : DecState) (fs : List (Nat × List Nat)) :
    runChunk { s with files := fs ++ s.files } bytes =
      mapFilesSum (fun f => fs ++ f) (runChunk s bytes) := by
  induction bytes generalizing s with
  | nil => simp [runChunk, mapFilesSum]
  | cons b rest ih =>
    simp only [runChunk, stepByte_files]
    cases hsb : stepByte s b with
    | inl s' => simpa [mapFilesSum] using ih s'
    | inr r =>
      cases r with
      | ok f c => simp [mapFilesSum]
      | imapErr f l => simp [mapFilesSum]

/-- Decoder state right after the concrete id-7/length-120 announcement line. -/
def annState120 : DecState :=
  { responseBuffer := [], currentEmailData := [], readingEmailBody := true,
    emailBodySize := 120, bodyBytesRead := 0, currentEmailId := 7,
    emailsSaved := 0, expectingClosingParen := false, files := [] }

/-- Decoder state just after saving the single 120-byte message, with the
files log erased. -/
def savedState120 : DecState :=
  { responseBuffer := [], currentEmailData := [], readingEmailBody := false,
    emailBodySize := 120, bodyBytesRead := 120, currentEmailId := 7,
    emailsSaved := 1, expectingClosingParen := true, files := [] }

/-- C2: feeding the decoder a CRLF-terminated line announcing id 7 and literal
length 120, then any 120 bytes, then the closing parenthesis delimiter and a
tagged "A003 ... OK" completion line, returns saved count exactly 1 with
exactly one file written, for id 7, whose contents are byte-for-byte the 120
body bytes; the file's name under the destination directory is
email_00007.eml. -/
theorem decoder_literal_roundtrip (body : List Nat) (dir : String)
    (h : body.length = 120) :
    processBatch (strBytes "* 7 FETCH (BODY[] \x7b120\x7d\r\n" ++ body ++
        strBytes ")\r\nA003 OK FETCH completed\r\n") =
      BatchOutcome.ok [(7, body)] 1
    ∧ emailFileName dir 7 = dir ++ "/email_00007.eml" := by
  refine ⟨?_, rfl⟩
  have hne : body ≠ [] := by
    intro hb
    rw [hb] at h
    simp at h
  have hlen : annState120.bodyBytesRead + body.length = annState120.emailBodySize := by
    simp [annState120, h]
  have h1 : runChunk initDecState (strBytes "* 7 FETCH (BODY[] \x7b120\x7d\r\n") =
      Sum.inl annState120 := by decide
  have h3 : runChunk savedState120 (strBytes ")\r\nA003 OK FETCH completed\r\n") =
      Sum.inr (BatchOutcome.ok [] 1) := by decide
  have h4 := runChunk_files (strBytes ")\r\nA003 OK FETCH completed\r\n")
      savedState120 [(7, body)]
  rw [h3] at h4
  simp only [mapFilesSum, List.append_nil] at h4
  have hrun : runChunk initDecState
      (strBytes "* 7 FETCH (BODY[] \x7b120\x7d\r\n" ++ body ++
        strBytes ")\r\nA003 OK FETCH completed\r\n") =
      Sum.inr (BatchOutcome.ok [(7, body)] 1) := by
    rw [List.append_assoc, runChunk_append, h1]
    show runChunk annState120 (body ++ strBytes ")\r\nA003 OK FETCH completed\r\n") = _
    rw [runChunk_body body annState120 _ rfl hlen hne]
    exact h4
  rw [processBatch_eq_runAll, runAll, hrun]

theorem decoder_literal_roundtrip_witness :
    (List.replicate 120 65).length = 120 ∧
    (processBatch (strBytes "* 7 FETCH (BODY[] \x7b120\x7d\r\n" ++ List.replicate 120 65 ++
        strBytes ")\r\nA003 OK FETCH completed\r\n") =
      BatchOutcome.ok [(7, List.replicate 120 65)] 1
    ∧ emailFileName "/tmp" 7 = "/tmp" ++ "/email_00007.eml") :=
  ⟨by decide, decoder_literal_roundtrip (List.replicate 120 65) "/tmp" (by decide)⟩

lemma hasCRLF_mid (xs ys : List Nat) : hasCRLF (xs ++ 13 :: 10 :: ys) = true := by
  induction xs with
  | nil => simp [hasCRLF]
  | cons a xs ih =>
    cases xs with
    | nil => simp_all [hasCRLF]
    | cons b xs2 => simp_all [hasCRLF]

lemma endsCRLF_push (buf : List Nat) (b : Nat) (h : endsCRLF (buf ++ [b]) = true) :
    ∃ buf₀, b = 10 ∧ buf = buf₀ ++ [13] := by
  unfold endsCRLF at h
  rw [List.reverse_append] at h
  cases hbr : buf.reverse with
  | nil => rw [hbr] at h; simp at h
  | cons c tl =>
    rw [hbr] at h
    simp only [List.reverse_cons, List.reverse_nil, List.nil_append,
      List.singleton_append, Bool.and_eq_true, beq_iff_eq] at h
    obtain ⟨hb, hc⟩ := h
    refine ⟨tl.reverse, hb, ?_⟩
    have h2 := congrArg List.reverse hbr
    rw [List.reverse_reverse] at h2
    rw [h2, List.reverse_cons, hc]

lemma scan_no_trigger (buf : List Nat) (b : Nat) (rest : List Nat)
    (h : hasCRLF (buf ++ b :: rest) = false) : endsCRLF (buf ++ [b]) = false := by
  by_contra hx
  have hx' : endsCRLF (buf ++ [b]) = true := by
    cases he : endsCRLF (buf ++ [b])
    · exact absurd he hx
    · rfl
  obtain ⟨buf₀, hb, hbuf⟩ := endsCRLF_push buf b hx'
  subst hb
  subst hbuf
  rw [List.append_assoc] at h
  simp only [List.singleton_append] at h
  rw [hasCRLF_mid] at h
  exact Bool.true_eq_false.mp h

lemma endsCRLF_cr (buf : List Nat) : endsCRLF (buf ++ [13]) = false := by
  unfold endsCRLF
  rw [List.reverse_append]
  cases buf.reverse with
  | nil => rfl
  | cons c tl => simp

lemma endsCRLF_crlf (buf : List Nat) : endsCRLF (buf ++ [13] ++ [10]) = true := by
  unfold endsCRLF
  rw [List.reverse_append]
  simp

lemma byteScanSt_line {σ α : Type} (step : σ → List Nat → Sum σ (Except ClientError α))
    (line : List Nat) (st : σ) (buf rest : List Nat)
    (h : hasCRLF (buf ++ line) = false) :
    byteScanSt step st buf (line ++ 13 :: 10 :: rest) =
      (match step st (buf ++ line ++ [13, 10]) with
       | Sum.inl st' => byteScanSt step st' [] rest
       | Sum.inr r => r) := by
  induction line generalizing buf with
  | nil =>
    rw [List.nil_append, byteScanSt]
    simp only [endsCRLF_cr, Bool.false_eq_true, if_false]
    rw [byteScanSt]
    simp only [endsCRLF_crlf, if_true]
    rw [List.append_nil, List.append_assoc]
    rfl
  | cons b line ih =>
    have hnt : endsCRLF (buf ++ [b]) = false :=
      scan_no_trigger buf b line (by
        have : buf ++ b :: line = buf ++ (b :: line) := rfl
        rw [this]
        exact h)
    rw [List.cons_append, byteScanSt]
    simp only [hnt, Bool.false_eq_true, if_false]
    have hih := ih (buf ++ [b]) (by
      rw [List.append_assoc]
      simpa using h)
    rw [hih]
    have hlist : buf ++ [b] ++ line = buf ++ b :: line := by simp
    rw [hlist]

/-- C3 (code evaluation at the failing input): on a FETCH announcement whose
literal length is 0, the decoder sets `readingEmailBody` with size 0 instead
of treating the body as complete; the next stream byte — here the closing
parenthesis — is consumed into the body, and the saved file for id 7 contains
that one byte rather than being empty.  The subsequent skip-to-delimiter then
swallows the tagged completion line. -/
theorem literal_length_zero_behavior :
    extractSize (trimA (strBytes "* 7 FETCH (BODY[] \x7b0\x7d\r\n")) = some 0 ∧
    runChunk initDecState (strBytes "* 7 FETCH (BODY[] \x7b0\x7d\r\n") =
      Sum.inl { initDecState with readingEmailBody := true, emailBodySize := 0,
                                  currentEmailId := 7 } ∧
    processBatch (strBytes "* 7 FETCH (BODY[] \x7b0\x7d\r\nA003 OK done\r\n") =
      BatchOutcome.ok [(7, [65])] 1 ∧
    processBatch (strBytes "* 7 FETCH (BODY[] \x7b0\x7d\r\n)\r\nA003 OK done\r\n") =
      BatchOutcome.ok [(7, [41])] 1 := by
  refine ⟨by decide, by decide, by decide, by decide⟩

/-- C5 (counterexample): on a completed FETCH line whose message-id extraction
fails (non-numeric id "x") but whose literal-length extraction succeeds, the
decoder does NOT remain in the line-reading state: it enters the
literal-reading state with the new length, keeping only the stale id. -/
theorem malformed_id_enters_literal :
    extractId (trimA (strBytes "* x FETCH (BODY[] \x7b5\x7d\r\n")) = none ∧
    extractSize (trimA (strBytes "* x FETCH (BODY[] \x7b5\x7d\r\n")) = some 5 ∧
    runChunk initDecState (strBytes "* x FETCH (BODY[] \x7b5\x7d\r\n") =
      Sum.inl { initDecState with readingEmailBody := true, emailBodySize := 5 } := by
  refine ⟨by decide, by decide, by decide⟩

/-- C5 (amended): on a completed line containing the FETCH marker and a brace,
the two extractions act independently: if the length extraction fails the
decoder stays in the line-reading state keeping the previous length, while
the id is still updated whenever its own extraction succeeds; if the length
extraction succeeds the decoder enters the literal-reading state even when
the id extraction failed, in which case the previous id is kept. -/
theorem fetch_line_extraction_behavior (s : DecState) (buf : List Nat)
    (h1 : containsSub (trimA buf) fetchTok = true)
    (h2 : containsSub (trimA buf) braceOpen = true) :
    (extractSize (trimA buf) = none →
      lineDispatch s buf =
        Sum.inl { s with currentEmailId := (extractId (trimA buf)).getD s.currentEmailId,
                         responseBuffer := [] }) ∧
    (∀ n, extractSize (trimA buf) = some n →
      lineDispatch s buf =
        Sum.inl { s with currentEmailId := (extractId (trimA buf)).getD s.currentEmailId,
                         emailBodySize := n, bodyBytesRead := 0, readingEmailBody := true,
                         currentEmailData := [], responseBuffer := [] }) := by
  constructor
  · intro hsz
    unfold lineDispatch
    simp only [h1, h2, Bool.and_self, if_true, hsz]
    cases hid : extractId (trimA buf) with
    | some id => simp
    | none => simp
  · intro n hsz
    unfold lineDispatch
    simp only [h1, h2, Bool.and_self, if_true, hsz]
    cases hid : extractId (trimA buf) with
    | some id => simp
    | none => simp

theorem fetch_line_extraction_behavior_witness :
    lineDispatch initDecState (strBytes "* 9 FETCH (BODY[] \x7bxx\x7d\r\n") =
      Sum.inl { initDecState with
        currentEmailId :=
          (extractId (trimA (strBytes "* 9 FETCH (BODY[] \x7bxx\x7d\r\n"))).getD
            initDecState.currentEmailId,
        responseBuffer := [] } :=
  (fetch_line_extraction_behavior initDecState _ (by decide) (by decide)).1 (by decide)

/-- C10: success detection on tagged completion lines is substring based, not
marker-position based: for LOGIN (tag A001), SELECT (tag A002) and the FETCH
completion check (tag A003), a line beginning with the tag is treated as
success exactly when it contains "OK" anywhere; in particular a concrete
"A001 NO ..." failure line whose free text contains "OK" makes the login scan
return Ok instead of AuthenticationError. -/
theorem tagged_ok_detection :
    (∀ (line rest : List Nat), hasCRLF line = false →
      tagA001.isPrefixOf (line ++ [13, 10]) = true →
      authenticateScan (line ++ 13 :: 10 :: rest) =
        (if containsSub (line ++ [13, 10]) okTok then Except.ok ()
         else Except.error ClientError.AuthenticationError)) ∧
    (∀ (line rest : List Nat), hasCRLF line = false →
      tagA002.isPrefixOf (line ++ [13, 10]) = true →
      selectInboxScan (line ++ 13 :: 10 :: rest) =
        (if containsSub (line ++ [13, 10]) okTok then Except.ok ()
         else Except.error (ClientError.ImapError (strBytes "Failed to select INBOX")))) ∧
    (∀ buf : List Nat,
      (containsSub (trimA buf) fetchTok && containsSub (trimA buf) braceOpen) = false →
      tagA003.isPrefixOf (trimA buf) = true →
      (lineDispatch initDecState buf = Sum.inr (BatchOutcome.ok [] 0) ↔
        containsSub (trimA buf) okTok = true)) ∧
    authenticateScan (strBytes "A001 NO LOGIN failed; OK was not granted\r\n") =
      Except.ok () := by
  refine ⟨?_, ?_, ?_, by decide⟩
  · intro line rest h1 h2
    unfold authenticateScan
    rw [byteScanSt_line authStep line () [] rest (by simpa using h1)]
    simp only [List.nil_append, authStep, h2, if_true]
  · intro line rest h1 h2
    unfold selectInboxScan
    rw [byteScanSt_line selectStep line () [] rest (by simpa using h1)]
    simp only [List.nil_append, selectStep, h2, if_true]
  · intro buf hA hB
    unfold lineDispatch
    cases hC : containsSub (trimA buf) okTok with
    | true => simp [hA, hB, hC, initDecState]
    | false =>
      by_cases hD : (containsSub (trimA buf) badTok || containsSub (trimA buf) noTok) = true
      · simp [hA, hB, hC, hD]
      · simp [hA, hB, hC, hD]

theorem tagged_ok_detection_witness :
    authenticateScan (strBytes "A001 NO bad" ++ 13 :: 10 :: []) =
      (if containsSub (strBytes "A001 NO bad" ++ [13, 10]) okTok then Except.ok ()
       else Except.error ClientError.AuthenticationError) :=
  tagged_ok_detection.1 (strBytes "A001 NO bad") [] (by decide) (by decide)

/-- Modelled from the spec wording for comparison with the source loop: a line
containing the exists-count marker updates the count to its second
whitespace-separated token when that parses as an integer, and is ignored
otherwise. -/
def specExistsCount (c : Nat) (line : List Nat) : Nat :=
  if containsSub line existsTok then
    match (splitWS line)[1]? with
    | some t => (parseU32 t).getD c
    | none => c
  else c

lemma countUpdate_eq (c : Nat) (buf : List Nat) :
    (if containsSub buf existsTok then
      match splitWS buf with
      | _ :: t :: _ =>
        match parseU32 t with
        | some k => k
        | none => c
      | _ => c
    else c) = specExistsCount c buf := by
  unfold specExistsCount
  by_cases hex : containsSub buf existsTok = true
  · simp only [hex, if_true]
    cases hsp : splitWS buf with
    | nil => simp
    | cons p0 tl =>
      cases tl with
      | nil => simp
      | cons p1 tl2 =>
        cases hp : parseU32 p1 with
        | none => simp [hp]
        | some k => simp [hp]
  · simp [hex]

lemma countStep_nonTag (c : Nat) (buf : List Nat)
    (h : tagA002.isPrefixOf buf = false) :
    countStep c buf = Sum.inl (specExistsCount c buf) := by
  unfold countStep
  simp only [h, Bool.false_eq_true, if_false]
  rw [countUpdate_eq]

lemma countStep_tag (c : Nat) (buf : List Nat)
    (h : tagA002.isPrefixOf buf = true) :
    countStep c buf =
      (if containsSub buf okTok then Sum.inr (Except.ok (specExistsCount c buf))
       else Sum.inr (Except.error
         (ClientError.ImapError (strBytes "Failed to select INBOX")))) := by
  unfold countStep
  simp only [h, if_true]
  rw [countUpdate_eq]

/-- Byte stream formed by terminating each given line with CRLF. -/
def joinLines (lines : List (List Nat)) : List Nat :=
  (lines.map (fun l => l ++ [13, 10])).flatten

lemma countScan_aux (pre : List (List Nat)) (tagLine post : List Nat) (c : Nat)
    (h1 : ∀ l ∈ pre, hasCRLF l = false)
    (h2 : ∀ l ∈ pre, tagA002.isPrefixOf (l ++ [13, 10]) = false)
    (h3 : hasCRLF tagLine = false)
    (h4 : tagA002.isPrefixOf (tagLine ++ [13, 10]) = true) :
    byteScanSt countStep c [] (joinLines (pre ++ [tagLine]) ++ post) =
      (if containsSub (tagLine ++ [13, 10]) okTok
       then Except.ok ((pre ++ [tagLine]).foldl
              (fun acc l => specExistsCount acc (l ++ [13, 10])) c)
       else Except.error (ClientError.ImapError (strBytes "Failed to select INBOX"))) := by
  induction pre generalizing c with
  | nil =>
    simp only [joinLines, List.nil_append, List.map_cons, List.map_nil,
      List.flatten_cons, List.flatten_nil, List.append_nil]
    have hstream : (tagLine ++ [13, 10]) ++ post = tagLine ++ 13 :: 10 :: post := by simp
    rw [hstream, byteScanSt_line countStep tagLine c [] post (by simpa using h3)]
    rw [List.nil_append, countStep_tag c (tagLine ++ [13, 10]) h4]
    cases hok : containsSub (tagLine ++ [13, 10]) okTok with
    | true => simp [hok]
    | false => simp [hok]
  | cons l pre ih =>
    have hl1 : hasCRLF l = false := h1 l (by simp)
    have hl2 : tagA002.isPrefixOf (l ++ [13, 10]) = false := h2 l (by simp)
    have hstream : joinLines ((l :: pre) ++ [tagLine]) ++ post =
        l ++ 13 :: 10 :: (joinLines (pre ++ [tagLine]) ++ post) := by
      simp [joinLines]
    rw [hstream, byteScanSt_line countStep l c [] _ (by simpa using hl1)]
    rw [List.nil_append, countStep_nonTag c (l ++ [13, 10]) hl2]
    have hrec := ih (specExistsCount c (l ++ [13, 10]))
      (fun x hx => h1 x (List.mem_cons_of_mem _ hx))
      (fun x hx => h2 x (List.mem_cons_of_mem _ hx))
    show byteScanSt countStep (specExistsCount c (l ++ [13, 10])) []
        (joinLines (pre ++ [tagLine]) ++ post) = _
    rw [hrec]
    simp [List.foldl_cons]

/-- C7: during the discovery select scan, every CRLF-terminated line
containing the exists marker is parsed for a count from its second
whitespace-separated token (last successfully parsed value wins over the
whole scan, malformed lines are skipped), and on the first line starting with
the select tag the scan returns Ok with the accumulated count if that line
contains "OK", and an ImapError otherwise. -/
theorem discovery_count_scan (pre : List (List Nat)) (tagLine post : List Nat)
    (h1 : ∀ l ∈ pre, hasCRLF l = false)
    (h2 : ∀ l ∈ pre, tagA002.isPrefixOf (l ++ [13, 10]) = false)
    (h3 : hasCRLF tagLine = false)
    (h4 : tagA002.isPrefixOf (tagLine ++ [13, 10]) = true) :
    getEmailCountScan (joinLines (pre ++ [tagLine]) ++ post) =
      (if containsSub (tagLine ++ [13, 10]) okTok
       then Except.ok ((pre ++ [tagLine]).foldl
              (fun acc l => specExistsCount acc (l ++ [13, 10])) 0)
       else Except.error (ClientError.ImapError (strBytes "Failed to select INBOX"))) :=
  countScan_aux pre tagLine post 0 h1 h2 h3 h4

theorem discovery_count_scan_witness :
    getEmailCountScan (joinLines
        ([strBytes "* bogus EXISTS", strBytes "* 41 EXISTS", strBytes "* 42 EXISTS",
          strBytes "* 3 RECENT"] ++ [strBytes "A002 OK SELECT done"]) ++ []) =
      (if containsSub (strBytes "A002 OK SELECT done" ++ [13, 10]) okTok
       then Except.ok (([strBytes "* bogus EXISTS", strBytes "* 41 EXISTS",
              strBytes "* 42 EXISTS", strBytes "* 3 RECENT"] ++
              [strBytes "A002 OK SELECT done"]).foldl
              (fun acc l => specExistsCount acc (l ++ [13, 10])) 0)
       else Except.error (ClientError.ImapError (strBytes "Failed to select INBOX"))) :=
  discovery_count_scan
    [strBytes "* bogus EXISTS", strBytes "* 41 EXISTS", strBytes "* 42 EXISTS",
     strBytes "* 3 RECENT"]
    (strBytes "A002 OK SELECT done") [] (by decide) (by decide) (by decide) (by decide)

/-- An environment in which every step up to and including the decoder
succeeds (fetch response is just the tagged OK line, zero messages) but the
logout write fails. -/
def logoutFailEnv : NetEnv :=
  { connectResult := Except.ok (), greetingOk := true, loginWriteOk := true,
    authStream := strBytes "A001 OK\r\n", selectWriteOk := true,
    selectStream := strBytes "A002 OK\r\n", fetchWriteOk := true,
    fetchChunks := [strBytes "A003 OK\r\n"], logoutWriteOk := false }

/-- The same environment with a succeeding logout write. -/
def logoutOkEnv : NetEnv := { logoutFailEnv with logoutWriteOk := true }

/-- C4 (counterexample): a batch run in which transport, login, selection,
fetch and the decoder (saved count 0) all succeed, yet `fetch_email_batch`
returns a ConnectionError rather than Ok 0, because the logout write fails
and its error is propagated by the `?` operator. -/
theorem logout_failure_changes_result :
    authenticate logoutFailEnv = Except.ok () ∧
    selectInbox logoutFailEnv = Except.ok () ∧
    runChunks initDecState logoutFailEnv.fetchChunks = BatchOutcome.ok [] 0 ∧
    fetchEmailBatch logoutFailEnv = Except.error ClientError.ConnectionError := by
  refine ⟨by decide, by decide, by decide, by decide⟩

/-- C4 (amended): when opening the transport, login, mailbox selection, the
fetch write and the decoder all succeed with saved count c, the result of
`fetch_email_batch` is Ok c exactly when the final logout write/flush also
succeeds; the server's logout response is never read, but a logout
write/flush failure replaces the result with ConnectionError. -/
theorem fetchEmailBatch_logout_dependence (env : NetEnv)
    (fs : List (Nat × List Nat)) (c : Nat)
    (hconn : env.connectResult = Except.ok ())
    (hauth : authenticate env = Except.ok ())
    (hsel : selectInbox env = Except.ok ())
    (hfw : env.fetchWriteOk = true)
    (hdec : runChunks initDecState env.fetchChunks = BatchOutcome.ok fs c) :
    (env.logoutWriteOk = true → fetchEmailBatch env = Except.ok c) ∧
    (env.logoutWriteOk = false →
      fetchEmailBatch env = Except.error ClientError.ConnectionError) := by
  constructor
  · intro hl
    simp [fetchEmailBatch, hconn, hauth, hsel, hfw, hdec, hl]
  · intro hl
    simp [fetchEmailBatch, hconn, hauth, hsel, hfw, hdec, hl]

theorem fetchEmailBatch_logout_dependence_witness :
    fetchEmailBatch logoutOkEnv = Except.ok 0 :=
  (fetchEmailBatch_logout_dependence logoutOkEnv [] 0 (by decide) (by decide)
    (by decide) (by decide) (by decide)).1 (by decide)

lemma foldOutcomes_char (l : List TaskOutcome) :
    foldOutcomes l = ((l.map succCount).sum, l.countP isErrOutcome) := by
  suffices haux : ∀ (t e : Nat),
      l.foldl (fun acc o =>
        match o with
        | TaskOutcome.joined (Except.ok count) => (acc.1 + count, acc.2)
        | TaskOutcome.joined (Except.error _) => (acc.1, acc.2 + 1)
        | TaskOutcome.joinError => (acc.1, acc.2 + 1)) (t, e) =
        (t + (l.map succCount).sum, e + l.countP isErrOutcome) by
    simpa [foldOutcomes] using haux 0 0
  induction l with
  | nil => simp
  | cons o rest ih =>
    intro t e
    cases o with
    | joined r =>
      cases r with
      | ok c =>
        simp only [List.foldl_cons, List.map_cons, List.sum_cons, List.countP_cons, ih,
          succCount, isErrOutcome, Prod.mk.injEq, Bool.false_eq_true, if_false, if_true]
        omega
      | error msg =>
        simp only [List.foldl_cons, List.map_cons, List.sum_cons, List.countP_cons, ih,
          succCount, isErrOutcome, Prod.mk.injEq, Bool.false_eq_true, if_false, if_true]
        omega
    | joinError =>
      simp only [List.foldl_cons, List.map_cons, List.sum_cons, List.countP_cons, ih,
        succCount, isErrOutcome, Prod.mk.injEq, Bool.false_eq_true, if_false, if_true]
      omega

/-- C6: folding the worker outcomes, if exactly one task counts as an error
then the summary is (sum of the successful counts, 1), and the orchestrator
itself still returns Ok — individual batch failures never fail the run. -/
theorem orchestrator_partial_failure (emailCount : Nat)
    (outcome : Nat × Nat → TaskOutcome)
    (h : ((batchRanges emailCount).map outcome).countP isErrOutcome = 1) :
    fetchEmailsConcurrently emailCount outcome =
      Except.ok ((((batchRanges emailCount).map outcome).map succCount).sum, 1) := by
  unfold fetchEmailsConcurrently
  rw [foldOutcomes_char, h]

lemma countRunning_append (l₁ l₂ : List WPhase) :
    countRunning (l₁ ++ l₂) = countRunning l₁ + countRunning l₂ := by
  simp [countRunning, List.countP_append]

lemma countRunning_cons (w : WPhase) (l : List WPhase) :
    countRunning (w :: l) = (if w == WPhase.running then 1 else 0) + countRunning l := by
  cases w <;> simp [countRunning, List.countP_cons, Nat.add_comm]

/-- C9: in the semaphore-admission model of the orchestrator, every state
reachable from all-workers-pending has at most k workers in the `running`
phase — the phase during which a worker holds a permit and may have its
connection open.  A worker acquires a permit before its transport is opened
and releases it when it finishes, whether it succeeded or failed. -/
theorem semaphore_concurrency_bound (k m : Nat) (s : List WPhase)
    (h : SemReach k (List.replicate m WPhase.pending) s) :
    countRunning s ≤ k := by
  induction h with
  | refl =>
    have : countRunning (List.replicate m WPhase.pending) = 0 := by
      induction m with
      | zero => rfl
      | succ n ihm => simpa [List.replicate_succ, countRunning_cons] using ihm
    omega
  | step s s' hr hs ih =>
    cases hs with
    | acquire l₁ l₂ hlt =>
      have e1 : countRunning (l₁ ++ WPhase.running :: l₂) =
          countRunning (l₁ ++ l₂) + 1 := by
        simp [countRunning_append, countRunning_cons]
        try omega
      omega
    | release l₁ l₂ =>
      have e1 : countRunning (l₁ ++ WPhase.finished :: l₂) ≤
          countRunning (l₁ ++ WPhase.running :: l₂) := by
        simp [countRunning_append, countRunning_cons]
        try omega
      omega

theorem semaphore_concurrency_bound_witness :
    countRunning [WPhase.running, WPhase.pending, WPhase.pending] ≤ 2 :=
  semaphore_concurrency_bound 2 3 [WPhase.running, WPhase.pending, WPhase.pending]
    (SemReach.step (List.replicate 3 WPhase.pending)
      [WPhase.running, WPhase.pending, WPhase.pending]
      SemReach.refl
      (@SemStep.acquire 2 [] [WPhase.pending, WPhase.pending] (by decide)))

lemma rangesFrom_nil (start n : Nat) (h : ¬ start ≤ n) : rangesFrom start n = [] := by
  rw [rangesFrom]
  simp [h]

lemma rangesFrom_cons (start n : Nat) (h : start ≤ n) :
    rangesFrom start n =
      (start, min ((start + 10 - 1) % 4294967296) n) :: rangesFrom (start + 10) n := by
  rw [rangesFrom]
  simp [h]

lemma rangesFrom_closed (fuel start n : Nat) (hf : n + 1 - start ≤ fuel) :
    rangesFrom start n =
      (List.range ((n + 1 - start + 9) / 10)).map
        (fun i => (start + 10 * i, min ((start + 10 * i + 9) % 4294967296) n)) := by
  induction fuel generalizing start with
  | zero =>
    have h : ¬ start ≤ n := by omega
    rw [rangesFrom_nil start n h]
    have hz : (n + 1 - start + 9) / 10 = 0 := by omega
    rw [hz]
    simp
  | succ fuel ih =>
    by_cases h : start ≤ n
    · rw [rangesFrom_cons start n h, ih (start + 10) (by omega)]
      have hk : (n + 1 - start + 9) / 10 = (n + 1 - (start + 10) + 9) / 10 + 1 := by
        omega
      rw [hk, List.range_succ_eq_map, List.map_cons]
      refine List.cons_eq_cons.mpr ⟨?_, ?_⟩
      · simp only [Prod.mk.injEq]
        exact ⟨by omega, by omega⟩
      · rw [List.map_map]
        apply List.map_congr_left
        intro i _
        simp only [Function.comp_apply, Nat.succ_eq_add_one, Prod.mk.injEq]
        exact ⟨by omega, by omega⟩
    · rw [rangesFrom_nil start n h]
      have hz : (n + 1 - start + 9) / 10 = 0 := by omega
      rw [hz]
      simp

lemma batchRanges_closed (n : Nat) :
    batchRanges n =
      (List.range ((n + 9) / 10)).map
        (fun i => (10 * i + 1, min ((10 * i + 10) % 4294967296) n)) := by
  unfold batchRanges
  rw [rangesFrom_closed (n + 1) 1 n (by omega)]
  have h1 : n + 1 - 1 + 9 = n + 9 := by omega
  rw [h1]
  apply List.map_congr_left
  intro i _
  simp only [Prod.mk.injEq]
  exact ⟨by omega, by omega⟩

/-- Below 4294967291 no generated start reaches the u32 wrap (the largest end
computed is a multiple of 10 at most n + 9, hence at most 4294967290), so the
modulus vanishes and the ranges take the ideal form. -/
lemma batchRanges_closed_small (n : Nat) (hn : n ≤ 4294967290) :
    batchRanges n =
      (List.range ((n + 9) / 10)).map
        (fun i => (10 * i + 1, min (10 * i + 10) n)) := by
  rw [batchRanges_closed]
  apply List.map_congr_left
  intro i hi
  rw [List.mem_range] at hi
  have hlt : 10 * i + 10 < 4294967296 := by omega
  rw [Nat.mod_eq_of_lt hlt]

lemma sum_sizes_full (k n : Nat) (h : 10 * k ≤ n) :
    ((List.range k).map (fun i => min (10 * i + 10) n + 1 - (10 * i + 1))).sum =
      10 * k := by
  induction k with
  | zero => simp
  | succ k ih =>
    rw [List.range_succ, List.map_append, List.sum_append, ih (by omega)]
    simp only [List.map_cons, List.map_nil, List.sum_cons, List.sum_nil]
    have h2 : min (10 * k + 10) n = 10 * k + 10 := by omega
    rw [h2]
    omega

/-- C1 (amended): for every total message count n with 1 ≤ n ≤ 4294967290
(batch size fixed at 10), the generated ranges partition [1, n] exactly: the
i-th range is (10 i + 1, min (10 i + 10) n), so the ranges are contiguous and
ascending, pairwise non-overlapping, each of size at most 10 with
end = min(start+9, n); the number of ranges is ceil(n / 10) = (n + 9) / 10;
the sizes sum to n; the first range starts at 1 and the last ends at n with
size n mod 10, or 10 when 10 divides n.  The bound excludes the u32 counts
4294967291..4294967295, where the source's `start + 10 - 1` wraps on the last
range (see the overflow counterexample). -/
theorem batchRanges_partition (n : Nat) (h : 1 ≤ n) (hle : n ≤ 4294967290) :
    (batchRanges n).length = (n + 9) / 10 ∧
    ((batchRanges n).map (fun r => r.2 + 1 - r.1)).sum = n ∧
    (∀ i, i < (batchRanges n).length →
      (batchRanges n)[i]? = some (10 * i + 1, min (10 * i + 10) n)) ∧
    (∀ r ∈ batchRanges n, r.1 ≤ r.2 ∧ r.2 = min (r.1 + 9) n ∧ r.2 + 1 - r.1 ≤ 10) ∧
    List.Chain' (fun a b => b.1 = a.2 + 1) (batchRanges n) ∧
    List.Pairwise (fun a b => a.2 < b.1) (batchRanges n) ∧
    (batchRanges n).head? = some (1, min 10 n) ∧
    (batchRanges n).getLast? = some (10 * ((n + 9) / 10) - 9, n) ∧
    n + 1 - (10 * ((n + 9) / 10) - 9) = (if n % 10 = 0 then 10 else n % 10) := by
  have hk1 : 1 ≤ (n + 9) / 10 := by omega
  obtain ⟨k', hk'⟩ : ∃ k', (n + 9) / 10 = k' + 1 := ⟨(n + 9) / 10 - 1, by omega⟩
  have hn1 : n ≤ 10 * k' + 10 := by omega
  have hn2 : 10 * k' < n := by omega
  refine ⟨?_, ?_, ?_, ?_, ?_, ?_, ?_, ?_, ?_⟩
  · simp [batchRanges_closed_small n hle]
  · rw [batchRanges_closed_small n hle, List.map_map]
    have hfun : ((fun r : Nat × Nat => r.2 + 1 - r.1) ∘
        (fun i => (10 * i + 1, min (10 * i + 10) n))) =
        (fun i => min (10 * i + 10) n + 1 - (10 * i + 1)) := rfl
    rw [hfun, hk', List.range_succ, List.map_append, List.sum_append,
      sum_sizes_full k' n (by omega)]
    simp only [List.map_cons, List.map_nil, List.sum_cons, List.sum_nil]
    omega
  · intro i hi
    rw [batchRanges_closed_small n hle] at hi ⊢
    simp only [List.length_map, List.length_range] at hi
    rw [List.getElem?_map, List.getElem?_range hi]
    rfl
  · intro r hr
    rw [batchRanges_closed_small n hle] at hr
    obtain ⟨i, hi, rfl⟩ := List.mem_map.mp hr
    rw [List.mem_range] at hi
    have : 10 * i + 1 ≤ n := by omega
    refine ⟨by omega, by omega, by omega⟩
  · rw [batchRanges_closed_small n hle, hk']
    rw [List.chain'_map]
    rw [List.chain'_range_succ]
    intro m hm
    simp only
    omega
  · rw [batchRanges_closed_small n hle]
    rw [List.pairwise_map]
    refine (List.pairwise_lt_range _).imp ?_
    intro a b hab
    simp only
    omega
  · rw [batchRanges_closed_small n hle, hk', List.range_succ_eq_map, List.map_cons, List.head?_cons]
  · rw [batchRanges_closed_small n hle, hk', List.range_succ, List.map_append]
    simp only [List.map_cons, List.map_nil]
    rw [List.getLast?_concat]
    simp only [Option.some.injEq, Prod.mk.injEq]
    exact ⟨by omega, by omega⟩
  · by_cases hm : n % 10 = 0 <;> simp [hm] <;> omega

theorem batchRanges_partition_witness :
    1 ≤ 25 ∧ 25 ≤ 4294967290 ∧
    ((batchRanges 25).length = (25 + 9) / 10 ∧
    ((batchRanges 25).map (fun r => r.2 + 1 - r.1)).sum = 25 ∧
    (∀ i, i < (batchRanges 25).length →
      (batchRanges 25)[i]? = some (10 * i + 1, min (10 * i + 10) 25)) ∧
    (∀ r ∈ batchRanges 25, r.1 ≤ r.2 ∧ r.2 = min (r.1 + 9) 25 ∧ r.2 + 1 - r.1 ≤ 10) ∧
    List.Chain' (fun a b => b.1 = a.2 + 1) (batchRanges 25) ∧
    List.Pairwise (fun a b => a.2 < b.1) (batchRanges 25) ∧
    (batchRanges 25).head? = some (1, min 10 25) ∧
    (batchRanges 25).getLast? = some (10 * ((25 + 9) / 10) - 9, 25) ∧
    25 + 1 - (10 * ((25 + 9) / 10) - 9) = (if 25 % 10 = 0 then 10 else 25 % 10)) :=
  ⟨by decide, by decide, batchRanges_partition 25 (by decide) (by decide)⟩

lemma batchRanges_25 : batchRanges 25 = [(1, 10), (11, 20), (21, 25)] := by
  rw [batchRanges_closed]
  rfl

/-- C1 (counterexample): at the representable count n = 4294967291 the last
generated start is 4294967291 and the u32 computation `start + 10 - 1` wraps
to 4, so the final range is (4294967291, 4): its end is neither n nor
min(start + 9, n), it is below its own start, and the ranges do not partition
[1, n] — refuting the unrestricted claim at a concrete input (in a debug
build the same input panics instead). -/
theorem batchRanges_overflow_counterexample :
    1 ≤ 4294967291 ∧ 4294967291 < 4294967296 ∧
    (batchRanges 4294967291).getLast? = some (4294967291, 4) ∧
    ((4294967291, 4) ∈ batchRanges 4294967291) ∧
    ¬ (∀ r ∈ batchRanges 4294967291,
        r.1 ≤ r.2 ∧ r.2 = min (r.1 + 9) 4294967291 ∧ r.2 + 1 - r.1 ≤ 10) ∧
    (batchRanges 4294967291).getLast? ≠
      some (10 * ((4294967291 + 9) / 10) - 9, 4294967291) := by
  have hk : (4294967291 + 9) / 10 = 429496730 := by norm_num
  have hlast : (batchRanges 4294967291).getLast? = some (4294967291, 4) := by
    rw [batchRanges_closed, hk]
    rw [show (429496730 : Nat) = 429496729 + 1 by norm_num, List.range_succ,
      List.map_append]
    simp only [List.map_cons, List.map_nil]
    rw [List.getLast?_concat]
    decide
  have hmem : (4294967291, 4) ∈ batchRanges 4294967291 := by
    rw [batchRanges_closed, hk]
    exact List.mem_map.mpr ⟨429496729, List.mem_range.mpr (by norm_num), by decide⟩
  refine ⟨by norm_num, by norm_num, hlast, hmem, ?_, ?_⟩
  · intro hall
    have h2 := hall (4294967291, 4) hmem
    exact absurd h2.1 (by decide)
  · rw [hlast]
    decide

theorem orchestrator_partial_failure_witness :
    fetchEmailsConcurrently 25
        (fun r => if r = ((11 : Nat), (20 : Nat))
                  then TaskOutcome.joined (Except.error "login failed")
                  else TaskOutcome.joined (Except.ok (r.2 + 1 - r.1))) =
      Except.ok ((((batchRanges 25).map
          (fun r => if r = ((11 : Nat), (20 : Nat))
                    then TaskOutcome.joined (Except.error "login failed")
                    else TaskOutcome.joined (Except.ok (r.2 + 1 - r.1)))).map
          succCount).sum, 1) :=
  orchestrator_partial_failure 25 _ (by rw [batchRanges_25]; decide)
